import Mathlib

/-!
Verification development for the `MosaicButton` component and the
`ServiceIcon` helper of the `ai-subscription-shortcut` repository.

The canvas particle simulation (`src/src/components/MosaicButton.tsx`) is
shallowly embedded here: machine numbers are modelled as rationals, the
`Math.random()` draws of one animation tick are passed explicitly as a
record of rationals in `[0, 1)`, and the mutable refs (`mousePos`,
`isHovering`, `squares`) become explicit state passed through pure
functions.
-/

namespace Mosaic

/-- A transient particle, `interface Square` in the source:
`{ x, y, opacity, life, decay }`. -/
structure Square where
  x : ℚ
  y : ℚ
  opacity : ℚ
  life : ℚ
  decay : ℚ
deriving DecidableEq, Repr

/-- Source: `const gridSize = 40;` in the animation effect. -/
def gridSize : ℚ := 40

/-- Source: `const radius = 200;` in the spawn branch of `render`. -/
def radius : ℚ := 200

/-- The values drawn from `Math.random()` during one `render` tick, in the
order the source would draw them: the spawn-chance roll, the two offset
rolls, and the opacity and decay rolls of the spawned square. -/
structure Rand where
  rSpawn : ℚ
  rOffX : ℚ
  rOffY : ℚ
  rOpacity : ℚ
  rDecay : ℚ
deriving DecidableEq, Repr

/-- Source: `Math.random()` returns a value in `[0, 1)`. -/
def Rand.Valid (r : Rand) : Prop :=
  0 ≤ r.rSpawn ∧ r.rSpawn < 1 ∧
  0 ≤ r.rOffX ∧ r.rOffX < 1 ∧
  0 ≤ r.rOffY ∧ r.rOffY < 1 ∧
  0 ≤ r.rOpacity ∧ r.rOpacity < 1 ∧
  0 ≤ r.rDecay ∧ r.rDecay < 1

instance (r : Rand) : Decidable r.Valid := by
  unfold Rand.Valid; infer_instance

/-- Source: `const offsetX = (Math.random() - 0.5) * radius * 2;` added to the
pointer x: the candidate x coordinate before grid snapping. -/
def candidateX (mouse : ℚ × ℚ) (r : Rand) : ℚ :=
  mouse.1 + (r.rOffX - 0.5) * radius * 2

/-- Source: `const offsetY = (Math.random() - 0.5) * radius * 2;` added to the
pointer y: the candidate y coordinate before grid snapping. -/
def candidateY (mouse : ℚ × ℚ) (r : Rand) : ℚ :=
  mouse.2 + (r.rOffY - 0.5) * radius * 2

/-- Source: `const gridX = Math.floor((x + offsetX) / gridSize) * gridSize;` -/
def gridX (mouse : ℚ × ℚ) (r : Rand) : ℚ :=
  (⌊candidateX mouse r / gridSize⌋ : ℤ) * gridSize

/-- Source: `const gridY = Math.floor((y + offsetY) / gridSize) * gridSize;` -/
def gridY (mouse : ℚ × ℚ) (r : Rand) : ℚ :=
  (⌊candidateY mouse r / gridSize⌋ : ℤ) * gridSize

/-- The squared distance from the candidate cell's center to the pointer.
The source computes
`dist = Math.sqrt((gridX + gridSize/2 - x)^2 + (gridY + gridSize/2 - y)^2)`
and tests `dist < radius`; since both sides are nonnegative this test is
equivalent to `distSq < radius^2`, which is how the guard appears below
(the equivalence with the square-root form is proved in
`spawn_geometry`). -/
def cellCenterDistSq (mouse : ℚ × ℚ) (r : Rand) : ℚ :=
  (gridX mouse r + gridSize / 2 - mouse.1) ^ 2 +
    (gridY mouse r + gridSize / 2 - mouse.2) ^ 2

/-- The square pushed by `squares.current.push({...})`:
`opacity: Math.random() * 0.5 + 0.2`, `life: 1.0`,
`decay: Math.random() * 0.03 + 0.01`. -/
def spawnedSquare (mouse : ℚ × ℚ) (r : Rand) : Square :=
  { x := gridX mouse r
    y := gridY mouse r
    opacity := r.rOpacity * 0.5 + 0.2
    life := 1.0
    decay := r.rDecay * 0.03 + 0.01 }

/-- The spawn phase of one `render` tick: only if `isHovering.current`,
and only when `Math.random() < 0.4`, build the snapped candidate and push
it when the circular mask test passes. -/
def spawnStep (hovering : Bool) (mouse : ℚ × ℚ) (r : Rand)
    (squares : List Square) : List Square :=
  if hovering then
    if r.rSpawn < 0.4 then
      if cellCenterDistSq mouse r < radius ^ 2 then
        squares ++ [spawnedSquare mouse r]
      else squares
    else squares
  else squares

/-- Source: `sq.life -= sq.decay;` applied to one square. -/
def advanceSquare (sq : Square) : Square :=
  { sq with life := sq.life - sq.decay }

/-- The update-and-cull phase of one `render` tick. The source iterates
`for (let i = squares.current.length - 1; i >= 0; i--)`, decrementing
`life` and splicing the square out when `life <= 0`; each element's update
and cull decision is independent of the others, so the backwards in-place
loop leaves exactly the squares this forward recursion keeps, in the same
order. -/
def advanceAndCull : List Square → List Square
  | [] => []
  | sq :: rest =>
    let sq' := advanceSquare sq
    if sq'.life ≤ 0 then advanceAndCull rest
    else sq' :: advanceAndCull rest

/-- One `ctx.fillRect` call of the update loop: position, and the alpha
`currentOpacity = sq.opacity * sq.life` put into the fill style. -/
structure Draw where
  x : ℚ
  y : ℚ
  alpha : ℚ
deriving DecidableEq, Repr

/-- The fill calls issued by the update loop, in the order they are
painted: the loop runs from the last index down to index 0, so the last
list element is painted first, which is why the draw for the head of the
list comes last here. -/
def drawsOf : List Square → List Draw
  | [] => []
  | sq :: rest =>
    let sq' := advanceSquare sq
    if sq'.life ≤ 0 then drawsOf rest
    else drawsOf rest ++ [⟨sq'.x, sq'.y, sq'.opacity * sq'.life⟩]

/-- The effect of one `render` tick on the `squares` collection:
spawn (when hovering), then advance and cull. -/
def tick (hovering : Bool) (mouse : ℚ × ℚ) (r : Rand)
    (squares : List Square) : List Square :=
  advanceAndCull (spawnStep hovering mouse r squares)

/-- The fill calls issued by one `render` tick. -/
def tickDraws (hovering : Bool) (mouse : ℚ × ℚ) (r : Rand)
    (squares : List Square) : List Draw :=
  drawsOf (spawnStep hovering mouse r squares)

/-- The component's per-instance state relevant to interaction and
simulation: the React render state `position`/`opacity` (used for the CSS
glow) and the mutable refs `mousePos`, `isHovering`, `squares`. -/
structure SimState where
  position : ℚ × ℚ
  opacity : ℚ
  mousePos : ℚ × ℚ
  isHovering : Bool
  squares : List Square
deriving DecidableEq, Repr

/-- The state at mount: `useState({ x: -100, y: -100 })`, `useState(0)`,
`useRef({ x: -1000, y: -1000 })`, `useRef(false)`, `useRef([])`. -/
def mountState : SimState :=
  { position := (-100, -100)
    opacity := 0
    mousePos := (-1000, -1000)
    isHovering := false
    squares := [] }

/-- Source: `handleMouseMove` with the container-relative pointer coordinates `p`:
`setPosition({x,y}); setOpacity(1); mousePos.current = {x,y};`. -/
def handleMouseMove (p : ℚ × ℚ) (s : SimState) : SimState :=
  { s with position := p, opacity := 1, mousePos := p }

/-- Source: `handleMouseEnter`: `setOpacity(1); isHovering.current = true;`. -/
def handleMouseEnter (s : SimState) : SimState :=
  { s with opacity := 1, isHovering := true }

/-- Source: `handleMouseLeave`: `setOpacity(0); isHovering.current = false;
mousePos.current = { x: -1000, y: -1000 };`. -/
def handleMouseLeave (s : SimState) : SimState :=
  { s with opacity := 0, isHovering := false, mousePos := (-1000, -1000) }

/-- One `render` tick acting on the whole state: it reads
`isHovering.current` and `mousePos.current` and mutates only
`squares.current`. -/
def tickState (r : Rand) (s : SimState) : SimState :=
  { s with squares := tick s.isHovering s.mousePos r s.squares }

/-- A run of consecutive `render` ticks, one `Rand` record per tick. -/
def runTicks : List Rand → SimState → SimState
  | [], s => s
  | r :: rs, s => runTicks rs (tickState r s)

/-- The canvas's pixel dimensions (`canvas.width`, `canvas.height`). -/
structure Canvas where
  width : ℚ
  height : ℚ
deriving DecidableEq, Repr

/-- The state touched by the resize listener: the canvas dimensions next
to the simulation state. -/
structure SurfaceState where
  canvas : Canvas
  sim : SimState
deriving DecidableEq, Repr

/-- Source: `resizeCanvas`: `canvas.width = containerRef.current.offsetWidth;
canvas.height = containerRef.current.offsetHeight;` given the container's
current layout box. It touches nothing else. -/
def resizeCanvas (containerW containerH : ℚ) (st : SurfaceState) :
    SurfaceState :=
  { st with canvas := { width := containerW, height := containerH } }

end Mosaic

/-!
The second `MosaicButton` in the source file (the top/bottom-split layout
variant) repeats the same hooks, handlers and animation effect; the
definitions below transcribe that second copy so the two can be compared.
-/

namespace Mosaic2

/-- Source: `interface Square` of the second variant. -/
structure Square where
  x : ℚ
  y : ℚ
  opacity : ℚ
  life : ℚ
  decay : ℚ
deriving DecidableEq, Repr

/-- Converts a second-variant square to a first-variant square
field-by-field (the two structure types are distinct Lean types). -/
def Square.toMosaic (sq : Square) : Mosaic.Square :=
  ⟨sq.x, sq.y, sq.opacity, sq.life, sq.decay⟩

/-- Source: `const gridSize = 40;` in the second variant's effect. -/
def gridSize : ℚ := 40

/-- Source: `const radius = 200;` in the second variant's spawn branch. -/
def radius : ℚ := 200

/-- Spawn phase of the second variant's `render` tick; the code is
line-for-line the code of the first variant (only the comment
`// Spawn new squares if hovering (Interactive)` differs). -/
def spawnStep (hovering : Bool) (mouse : ℚ × ℚ) (r : Mosaic.Rand)
    (squares : List Square) : List Square :=
  if hovering then
    if r.rSpawn < 0.4 then
      let gridX : ℚ := (⌊(mouse.1 + (r.rOffX - 0.5) * radius * 2) / gridSize⌋ : ℤ) * gridSize
      let gridY : ℚ := (⌊(mouse.2 + (r.rOffY - 0.5) * radius * 2) / gridSize⌋ : ℤ) * gridSize
      if (gridX + gridSize / 2 - mouse.1) ^ 2 + (gridY + gridSize / 2 - mouse.2) ^ 2
          < radius ^ 2 then
        squares ++ [{ x := gridX, y := gridY, opacity := r.rOpacity * 0.5 + 0.2,
                      life := 1.0, decay := r.rDecay * 0.03 + 0.01 }]
      else squares
    else squares
  else squares

/-- Update-and-cull phase of the second variant's `render` tick
(identical loop body). -/
def advanceAndCull : List Square → List Square
  | [] => []
  | sq :: rest =>
    let sq' : Square := { sq with life := sq.life - sq.decay }
    if sq'.life ≤ 0 then advanceAndCull rest
    else sq' :: advanceAndCull rest

/-- Fill calls of the second variant's update loop, painted last index
first as in `Mosaic.drawsOf`. -/
def drawsOf : List Square → List Mosaic.Draw
  | [] => []
  | sq :: rest =>
    let sq' : Square := { sq with life := sq.life - sq.decay }
    if sq'.life ≤ 0 then drawsOf rest
    else drawsOf rest ++ [⟨sq'.x, sq'.y, sq'.opacity * sq'.life⟩]

/-- One tick of the second variant. -/
def tick (hovering : Bool) (mouse : ℚ × ℚ) (r : Mosaic.Rand)
    (squares : List Square) : List Square :=
  advanceAndCull (spawnStep hovering mouse r squares)

/-- Source: `handleMouseMove` of the second variant, acting on the shared state
shape. -/
def handleMouseMove (p : ℚ × ℚ) (s : Mosaic.SimState) : Mosaic.SimState :=
  { s with position := p, opacity := 1, mousePos := p }

/-- Source: `handleMouseEnter` of the second variant. -/
def handleMouseEnter (s : Mosaic.SimState) : Mosaic.SimState :=
  { s with opacity := 1, isHovering := true }

/-- Source: `handleMouseLeave` of the second variant. -/
def handleMouseLeave (s : Mosaic.SimState) : Mosaic.SimState :=
  { s with opacity := 0, isHovering := false, mousePos := (-1000, -1000) }

end Mosaic2

/-!
`src/unnamed/part_000` (`ServiceIcon`): a lookup from a service name
string to an icon element of the given pixel size.
-/

/-- The three icon elements `ServiceIcon` can render, each carrying the
`size` prop it was given. -/
inductive Icon where
  | Claude (size : ℚ)
  | OpenAI (size : ℚ)
  | Gemini (size : ℚ)
deriving DecidableEq, Repr

/-- Source: `ServiceIcon = ({ name, size }) => ...`: three string comparisons,
then `return null`. `none` models the `null` return. -/
def ServiceIcon (name : String) (size : ℚ) : Option Icon :=
  if name = "Claude" then some (Icon.Claude size)
  else if name = "OpenAI" then some (Icon.OpenAI size)
  else if name = "Gemini" then some (Icon.Gemini size)
  else none

namespace Mosaic

/-- Invariant on the live collection that every reachable state
satisfies: life never exceeds the initial `1.0` and decay is at least the
`0.01` floor of its sampling formula. -/
def LiveInv (l : List Square) : Prop :=
  ∀ sq ∈ l, sq.life ≤ 1 ∧ 1 / 100 ≤ sq.decay

theorem advanceAndCull_nil : advanceAndCull [] = [] := rfl

theorem advanceAndCull_cons (sq : Square) (rest : List Square) :
    advanceAndCull (sq :: rest) =
      if (advanceSquare sq).life ≤ 0 then advanceAndCull rest
      else advanceSquare sq :: advanceAndCull rest := rfl

theorem mem_advanceAndCull {sq' : Square} {l : List Square} :
    sq' ∈ advanceAndCull l ↔
      ∃ sq ∈ l, sq' = advanceSquare sq ∧ 0 < sq'.life := by
  induction l with
  | nil => simp [advanceAndCull]
  | cons a rest ih =>
    rw [advanceAndCull_cons]
    by_cases h : (advanceSquare a).life ≤ 0
    · rw [if_pos h, ih]
      constructor
      · rintro ⟨sq, hm, he, hl⟩
        exact ⟨sq, List.mem_cons_of_mem a hm, he, hl⟩
      · rintro ⟨sq, hm, he, hl⟩
        rcases List.mem_cons.mp hm with rfl | hm
        · rw [he] at hl; exact absurd hl (not_lt.mpr h)
        · exact ⟨sq, hm, he, hl⟩
    · rw [if_neg h]
      constructor
      · intro hmem
        rcases List.mem_cons.mp hmem with rfl | hmem
        · exact ⟨a, List.mem_cons_self a rest, rfl, not_le.mp h⟩
        · rcases ih.mp hmem with ⟨sq, hm, he, hl⟩
          exact ⟨sq, List.mem_cons_of_mem a hm, he, hl⟩
      · rintro ⟨sq, hm, he, hl⟩
        rcases List.mem_cons.mp hm with rfl | hm
        · rw [he]; exact List.mem_cons_self _ _
        · exact List.mem_cons_of_mem _ (ih.mpr ⟨sq, hm, he, hl⟩)

theorem advanceAndCull_append (l₁ l₂ : List Square) :
    advanceAndCull (l₁ ++ l₂) = advanceAndCull l₁ ++ advanceAndCull l₂ := by
  induction l₁ with
  | nil => simp [advanceAndCull]
  | cons a rest ih =>
    rw [List.cons_append, advanceAndCull_cons, advanceAndCull_cons, ih]
    by_cases h : (advanceSquare a).life ≤ 0
    · rw [if_pos h, if_pos h]
    · rw [if_neg h, if_neg h, List.cons_append]

theorem drawsOf_cons (sq : Square) (rest : List Square) :
    drawsOf (sq :: rest) =
      if (advanceSquare sq).life ≤ 0 then drawsOf rest
      else drawsOf rest ++
        [⟨(advanceSquare sq).x, (advanceSquare sq).y,
          (advanceSquare sq).opacity * (advanceSquare sq).life⟩] := rfl

/-- Every fill call of the update loop paints a square that stayed in the
collection, with alpha `opacity * life` of its post-decrement state. -/
theorem drawsOf_eq (l : List Square) :
    drawsOf l = (advanceAndCull l).reverse.map
      (fun sq => ⟨sq.x, sq.y, sq.opacity * sq.life⟩) := by
  induction l with
  | nil => simp [drawsOf, advanceAndCull]
  | cons a rest ih =>
    rw [drawsOf_cons, advanceAndCull_cons]
    by_cases h : (advanceSquare a).life ≤ 0
    · rw [if_pos h, if_pos h, ih]
    · rw [if_neg h, if_neg h, ih, List.reverse_cons, List.map_append]
      rfl

theorem drawsOf_append (l₁ l₂ : List Square) :
    drawsOf (l₁ ++ l₂) = drawsOf l₂ ++ drawsOf l₁ := by
  rw [drawsOf_eq, drawsOf_eq, drawsOf_eq, advanceAndCull_append,
    List.reverse_append, List.map_append]

theorem spawnStep_not_hovering (mouse : ℚ × ℚ) (r : Rand)
    (sqs : List Square) : spawnStep false mouse r sqs = sqs := rfl

theorem spawnStep_roll_fails (mouse : ℚ × ℚ) (r : Rand) (sqs : List Square)
    (h : ¬r.rSpawn < 0.4) : spawnStep true mouse r sqs = sqs := by
  simp [spawnStep, h]

theorem spawnStep_accept (mouse : ℚ × ℚ) (r : Rand) (sqs : List Square)
    (hroll : r.rSpawn < 0.4) (hacc : cellCenterDistSq mouse r < radius ^ 2) :
    spawnStep true mouse r sqs = sqs ++ [spawnedSquare mouse r] := by
  simp [spawnStep, hroll, hacc]

theorem spawnStep_reject (mouse : ℚ × ℚ) (r : Rand) (sqs : List Square)
    (hroll : r.rSpawn < 0.4) (hacc : ¬cellCenterDistSq mouse r < radius ^ 2) :
    spawnStep true mouse r sqs = sqs := by
  simp [spawnStep, hroll, hacc]

theorem mem_spawnStep {sq : Square} {hovering : Bool} {mouse : ℚ × ℚ}
    {r : Rand} {sqs : List Square} (h : sq ∈ spawnStep hovering mouse r sqs) :
    sq ∈ sqs ∨ sq = spawnedSquare mouse r := by
  unfold spawnStep at h
  split at h
  · split at h
    · split at h
      · rcases List.mem_append.mp h with hm | hm
        · exact Or.inl hm
        · exact Or.inr (List.mem_singleton.mp hm)
      · exact Or.inl h
    · exact Or.inl h
  · exact Or.inl h

theorem spawnedSquare_life (mouse : ℚ × ℚ) (r : Rand) :
    (spawnedSquare mouse r).life = 1 := by norm_num [spawnedSquare]

theorem spawnedSquare_opacity_mem (mouse : ℚ × ℚ) (r : Rand)
    (hr : r.Valid) : 0.2 ≤ (spawnedSquare mouse r).opacity ∧
      (spawnedSquare mouse r).opacity ≤ 0.7 := by
  obtain ⟨-, -, -, -, -, -, h0, h1, -, -⟩ := hr
  constructor
  · simp only [spawnedSquare]; nlinarith
  · simp only [spawnedSquare]; nlinarith

theorem spawnedSquare_decay_mem (mouse : ℚ × ℚ) (r : Rand)
    (hr : r.Valid) : 0.01 ≤ (spawnedSquare mouse r).decay ∧
      (spawnedSquare mouse r).decay ≤ 0.04 := by
  obtain ⟨-, -, -, -, -, -, -, -, h0, h1⟩ := hr
  constructor
  · simp only [spawnedSquare]; nlinarith
  · simp only [spawnedSquare]; nlinarith

/-- The spawn phase preserves the reachable-state invariant. -/
theorem liveInv_spawnStep {hovering : Bool} {mouse : ℚ × ℚ} {r : Rand}
    {sqs : List Square} (hr : r.Valid) (hinv : LiveInv sqs) :
    LiveInv (spawnStep hovering mouse r sqs) := by
  intro sq hm
  rcases mem_spawnStep hm with hm | rfl
  · exact hinv sq hm
  · refine ⟨le_of_eq (spawnedSquare_life mouse r), ?_⟩
    have := (spawnedSquare_decay_mem mouse r hr).1
    linarith [this]

/-- C1: At every simulation tick, immediately after the advance-and-cull
step, every particle remaining in the live collection satisfies
`0 < life ≤ 1.0`; any particle whose life drops to `≤ 0` when its decay is
subtracted is absent from the post-tick collection, and every fill call of
that tick paints a surviving particle, whose life is positive. -/
theorem live_life_in_unit_interval (hovering : Bool) (mouse : ℚ × ℚ)
    (r : Rand) (sqs : List Square) (hr : r.Valid) (hinv : LiveInv sqs) :
    (∀ sq ∈ tick hovering mouse r sqs, 0 < sq.life ∧ sq.life ≤ 1) ∧
    (∀ sq ∈ spawnStep hovering mouse r sqs, (advanceSquare sq).life ≤ 0 →
      advanceSquare sq ∉ tick hovering mouse r sqs) ∧
    (∀ d ∈ tickDraws hovering mouse r sqs,
      ∃ sq ∈ tick hovering mouse r sqs,
        d.alpha = sq.opacity * sq.life ∧ 0 < sq.life) := by
  have hinv' : LiveInv (spawnStep hovering mouse r sqs) :=
    liveInv_spawnStep hr hinv
  have hmain : ∀ sq ∈ tick hovering mouse r sqs, 0 < sq.life ∧ sq.life ≤ 1 := by
    intro sq hm
    rcases mem_advanceAndCull.mp hm with ⟨sq₀, hm₀, rfl, hl⟩
    obtain ⟨hle, hdec⟩ := hinv' sq₀ hm₀
    refine ⟨hl, ?_⟩
    simp only [advanceSquare]
    linarith
  refine ⟨hmain, ?_, ?_⟩
  · intro sq hm hneg hcontra
    exact absurd (hmain _ hcontra).1 (not_lt.mpr hneg)
  · intro d hd
    rw [tickDraws, drawsOf_eq] at hd
    rcases List.mem_map.mp hd with ⟨sq, hm, rfl⟩
    have hm' : sq ∈ tick hovering mouse r sqs := List.mem_reverse.mp hm
    exact ⟨sq, hm', rfl, (hmain sq hm').1⟩

/-- C1 witness: at pointer `(100, 100)` with the concrete random draws
`(0, 1/2, 1/2, 0, 0)` from the empty collection, the surviving spawned
square has `0 < life ≤ 1`. -/
theorem live_life_in_unit_interval_witness :
    0 < (advanceSquare (spawnedSquare (100, 100) ⟨0, 1/2, 1/2, 0, 0⟩)).life ∧
      (advanceSquare (spawnedSquare (100, 100) ⟨0, 1/2, 1/2, 0, 0⟩)).life ≤ 1 :=
  (live_life_in_unit_interval true (100, 100) ⟨0, 1/2, 1/2, 0, 0⟩ []
      (by norm_num [Rand.Valid]) (by simp [LiveInv])).1
    (advanceSquare (spawnedSquare (100, 100) ⟨0, 1/2, 1/2, 0, 0⟩))
    (by norm_num [tick, spawnStep, cellCenterDistSq, gridX, gridY, candidateX,
      candidateY, spawnedSquare, advanceAndCull, advanceSquare, gridSize, radius])

/-- C2: with the pointer hovering and the spawn roll below `0.4`, the
candidate point lies in the axis-aligned square of side `2R` centered on
the pointer, both coordinates snap down to multiples of the 40-unit grid,
and a particle is appended at the snapped position precisely when the
Euclidean distance from the cell center (snapped + 20) to the pointer is
strictly below `R = 200`; otherwise the collection is unchanged. -/
theorem spawn_geometry (mouse : ℚ × ℚ) (r : Rand) (sqs : List Square)
    (hr : r.Valid) (hroll : r.rSpawn < 0.4) :
    (mouse.1 - radius ≤ candidateX mouse r ∧
      candidateX mouse r < mouse.1 + radius) ∧
    (mouse.2 - radius ≤ candidateY mouse r ∧
      candidateY mouse r < mouse.2 + radius) ∧
    (∃ kx : ℤ, gridX mouse r = kx * gridSize ∧
      gridX mouse r ≤ candidateX mouse r ∧
      candidateX mouse r - gridX mouse r < gridSize) ∧
    (∃ ky : ℤ, gridY mouse r = ky * gridSize ∧
      gridY mouse r ≤ candidateY mouse r ∧
      candidateY mouse r - gridY mouse r < gridSize) ∧
    ((spawnedSquare mouse r).x = gridX mouse r ∧
      (spawnedSquare mouse r).y = gridY mouse r) ∧
    (spawnStep true mouse r sqs = sqs ++ [spawnedSquare mouse r] ↔
      cellCenterDistSq mouse r < radius ^ 2) ∧
    (cellCenterDistSq mouse r < radius ^ 2 ↔
      Real.sqrt ((cellCenterDistSq mouse r : ℚ) : ℝ) < ((radius : ℚ) : ℝ)) ∧
    (¬cellCenterDistSq mouse r < radius ^ 2 →
      spawnStep true mouse r sqs = sqs) := by
  obtain ⟨-, -, hx0, hx1, hy0, hy1, -, -, -, -⟩ := hr
  refine ⟨?_, ?_, ?_, ?_, ⟨rfl, rfl⟩, ?_, ?_, ?_⟩
  · unfold candidateX radius
    constructor <;> nlinarith
  · unfold candidateY radius
    constructor <;> nlinarith
  · refine ⟨⌊candidateX mouse r / gridSize⌋, rfl, ?_, ?_⟩
    · rw [gridX]
      have h := Int.floor_le (candidateX mouse r / gridSize)
      have h40 : (0 : ℚ) < gridSize := by norm_num [gridSize]
      calc (⌊candidateX mouse r / gridSize⌋ : ℚ) * gridSize
          ≤ candidateX mouse r / gridSize * gridSize :=
            mul_le_mul_of_nonneg_right h (le_of_lt h40)
        _ = candidateX mouse r := by field_simp
    · rw [gridX]
      have h := Int.lt_floor_add_one (candidateX mouse r / gridSize)
      have h40 : (0 : ℚ) < gridSize := by norm_num [gridSize]
      have := mul_lt_mul_of_pos_right h h40
      rw [add_mul, one_mul] at this
      have hc : candidateX mouse r / gridSize * gridSize = candidateX mouse r := by
        field_simp
      linarith [hc ▸ this]
  · refine ⟨⌊candidateY mouse r / gridSize⌋, rfl, ?_, ?_⟩
    · rw [gridY]
      have h := Int.floor_le (candidateY mouse r / gridSize)
      have h40 : (0 : ℚ) < gridSize := by norm_num [gridSize]
      calc (⌊candidateY mouse r / gridSize⌋ : ℚ) * gridSize
          ≤ candidateY mouse r / gridSize * gridSize :=
            mul_le_mul_of_nonneg_right h (le_of_lt h40)
        _ = candidateY mouse r := by field_simp
    · rw [gridY]
      have h := Int.lt_floor_add_one (candidateY mouse r / gridSize)
      have h40 : (0 : ℚ) < gridSize := by norm_num [gridSize]
      have := mul_lt_mul_of_pos_right h h40
      rw [add_mul, one_mul] at this
      have hc : candidateY mouse r / gridSize * gridSize = candidateY mouse r := by
        field_simp
      linarith [hc ▸ this]
  · constructor
    · intro heq
      by_contra hacc
      rw [spawnStep_reject mouse r sqs hroll hacc] at heq
      exact absurd heq (by simp)
    · exact spawnStep_accept mouse r sqs hroll
  · have hrad : (0 : ℝ) < ((radius : ℚ) : ℝ) := by norm_num [radius]
    rw [Real.sqrt_lt' hrad]
    rw [show (((radius : ℚ) : ℝ) ^ 2 = (((radius ^ 2 : ℚ) : ℝ))) by push_cast; ring]
    exact_mod_cast Iff.rfl
  · exact spawnStep_reject mouse r sqs hroll

/-- C2 witness: at pointer `(100, 100)` with random draws
`(0, 1/2, 1/2, 0, 0)` the candidate snaps to `(80, 80)`, whose cell
center `(100, 100)` is at distance `0 < 200`, so the square is
appended. -/
theorem spawn_geometry_witness :
    spawnStep true (100, 100) ⟨0, 1/2, 1/2, 0, 0⟩ [] =
      [] ++ [spawnedSquare (100, 100) ⟨0, 1/2, 1/2, 0, 0⟩] :=
  ((spawn_geometry (100, 100) ⟨0, 1/2, 1/2, 0, 0⟩ []
      (by norm_num [Rand.Valid]) (by norm_num)).2.2.2.2.2.1).mpr
    (by norm_num [cellCenterDistSq, gridX, gridY, candidateX, candidateY,
      gridSize, radius])

/-- C3 counterexample: in the reachable state right after a pointer-enter
event and before any pointer-move — hovering is `true` while the shared
position still holds the sentinel `(-1000, -1000)` — a tick with spawn
roll `0` and centered offset rolls appends a particle: the candidate
`(-1000, -1000)` snaps to the grid cell whose center `(-980, -980)` is at
distance `√800 < 200` from the pointer, so the live count becomes 1, not
0 as the claim requires. -/
theorem sentinel_hover_spawn_counterexample :
    (tickState ⟨0, 1/2, 1/2, 0, 0⟩ (handleMouseEnter mountState)).squares =
      [⟨-1000, -1000, 1/5, 99/100, 1/100⟩] ∧
    (handleMouseEnter mountState).mousePos = (-1000, -1000) := by
  constructor
  · norm_num [tickState, handleMouseEnter, mountState, tick, spawnStep,
      cellCenterDistSq, gridX, gridY, candidateX, candidateY, spawnedSquare,
      advanceAndCull, advanceSquare, gridSize, radius]
  · rfl

/-- C3 amended: the sentinel position alone does not prevent spawning —
spawning is gated on the hovering flag. Whenever the hovering flag is
false (in particular while the position holds the sentinel, as it does
whenever not hovering), a tick spawns nothing: the collection only
advances and culls. -/
theorem sentinel_idle_no_spawn (s : SimState) (r : Rand)
    (hpos : s.mousePos = (-1000, -1000)) (hhov : s.isHovering = false) :
    (tickState r s).squares = advanceAndCull s.squares ∧
    spawnStep s.isHovering s.mousePos r s.squares = s.squares := by
  rw [hhov]
  exact ⟨by rw [tickState, tick, hhov, spawnStep_not_hovering],
    spawnStep_not_hovering _ _ _⟩

/-- C3 amended-claim witness: at the mount state (sentinel position, not
hovering) a tick leaves the empty collection empty. -/
theorem sentinel_idle_no_spawn_witness :
    (tickState ⟨0, 1/2, 1/2, 0, 0⟩ mountState).squares =
      advanceAndCull mountState.squares :=
  (sentinel_idle_no_spawn mountState ⟨0, 1/2, 1/2, 0, 0⟩ rfl rfl).1

/-- Ticks only touch `squares`; with the hovering flag false they reduce
to iterated advance-and-cull. -/
theorem runTicks_not_hovering (rs : List Rand) (s : SimState)
    (h : s.isHovering = false) :
    runTicks rs s = { s with squares := advanceAndCull^[rs.length] s.squares } := by
  induction rs generalizing s with
  | nil => simp [runTicks]
  | cons r rs ih =>
    rw [runTicks, ih (tickState r s) (by rw [tickState]; exact h)]
    rw [tickState, tick, h, spawnStep_not_hovering]
    simp [List.length_cons, Function.iterate_succ_apply]

/-- C4: a tick with the hovering flag false never adds a particle: the
spawn phase is the identity, any run of ticks from the mount state leaves
the collection empty, and after a pointer-leave event every subsequent
run of ticks only advances and culls (the hovering flag stays false), so
zero new particles are spawned. -/
theorem not_hovering_no_spawn :
    (∀ (mouse : ℚ × ℚ) (r : Rand) (sqs : List Square),
      spawnStep false mouse r sqs = sqs) ∧
    (∀ rs : List Rand, (runTicks rs mountState).squares = []) ∧
    (∀ (s : SimState) (rs : List Rand),
      (runTicks rs (handleMouseLeave s)).squares =
        advanceAndCull^[rs.length] s.squares ∧
      (runTicks rs (handleMouseLeave s)).isHovering = false ∧
      (runTicks rs (handleMouseLeave s)).squares.length ≤ s.squares.length) := by
  have hlen : ∀ l : List Square, (advanceAndCull l).length ≤ l.length := by
    intro l
    induction l with
    | nil => simp [advanceAndCull]
    | cons a rest ih =>
      rw [advanceAndCull_cons]
      by_cases h : (advanceSquare a).life ≤ 0
      · rw [if_pos h]; simp; omega
      · rw [if_neg h]; simpa using ih
  have hlenIter : ∀ (n : ℕ) (l : List Square),
      (advanceAndCull^[n] l).length ≤ l.length := by
    intro n
    induction n with
    | zero => simp
    | succ k ih =>
      intro l
      rw [Function.iterate_succ_apply]
      exact le_trans (ih (advanceAndCull l)) (hlen l)
  refine ⟨fun _ _ _ => rfl, ?_, ?_⟩
  · intro rs
    rw [runTicks_not_hovering rs mountState rfl]
    simp [mountState, Function.iterate_fixed advanceAndCull_nil]
  · intro s rs
    have h := runTicks_not_hovering rs (handleMouseLeave s) rfl
    rw [h]
    exact ⟨rfl, rfl, hlenIter rs.length s.squares⟩

/-- A lone square that stays alive through `n` advance steps: its life is
the initial life minus `n` times its decay. -/
theorem advanceAndCull_iterate_single (sq : Square) (n : ℕ)
    (hdec : 0 ≤ sq.decay) (hsurv : 0 < sq.life - n * sq.decay) :
    advanceAndCull^[n] [sq] = [{ sq with life := sq.life - n * sq.decay }] := by
  induction n with
  | zero => simp
  | succ k ih =>
    have hstep : (k : ℚ) * sq.decay ≤ (k + 1 : ℕ) * sq.decay := by
      push_cast
      nlinarith
    have hk : 0 < sq.life - k * sq.decay := by
      have : ((k + 1 : ℕ) : ℚ) * sq.decay = (k + 1) * sq.decay := by push_cast; ring
      nlinarith
    rw [Function.iterate_succ_apply', ih hk, advanceAndCull_cons]
    rw [if_neg (by simp only [advanceSquare]; push_cast at hsurv ⊢; intro hc; nlinarith)]
    congr 1
    simp only [advanceSquare]
    congr 1
    push_cast
    ring

/-- The particle of end-to-end scenario 3:
`life = 1.0, decay = 0.05, opacity = 0.6`, placed at the origin. -/
def scenarioSquare : Square :=
  { x := 0, y := 0, opacity := 0.6, life := 1.0, decay := 0.05 }

/-- C5: the scenario particle survives 19 advance steps with life exactly
`0.05` and is painted on the 19th step with alpha `0.6 * 0.05 = 0.03`;
the 20th advance step drives its life to `0 ≤ 0` and removes it from the
collection. -/
theorem scenario_twenty_tick_lifecycle :
    advanceAndCull^[19] [scenarioSquare] =
      [{ scenarioSquare with life := 0.05 }] ∧
    drawsOf (advanceAndCull^[18] [scenarioSquare]) = [⟨0, 0, 0.03⟩] ∧
    (0.03 : ℚ) = 0.6 * 0.05 ∧
    (advanceSquare { scenarioSquare with life := 0.05 }).life ≤ 0 ∧
    advanceAndCull^[20] [scenarioSquare] = [] := by
  have h19 := advanceAndCull_iterate_single scenarioSquare 19
    (by norm_num [scenarioSquare]) (by norm_num [scenarioSquare])
  have h18 := advanceAndCull_iterate_single scenarioSquare 18
    (by norm_num [scenarioSquare]) (by norm_num [scenarioSquare])
  refine ⟨?_, ?_, by norm_num, by norm_num [advanceSquare, scenarioSquare], ?_⟩
  · rw [h19]
    norm_num [scenarioSquare]
  · rw [h18]
    norm_num [drawsOf, advanceSquare, scenarioSquare]
  · have : (20 : ℕ) = 19 + 1 := by norm_num
    rw [this, Function.iterate_succ_apply', h19]
    norm_num [advanceAndCull_cons, advanceSquare, scenarioSquare,
      advanceAndCull_nil]

/-- C6: every spawned particle has opacity in `[0.2, 0.7]`, decay in
`[0.01, 0.04]` (both sampled once, at spawn), life exactly `1.0`, and —
since its decay is positive and decay is never changed afterwards — its
life strictly decreases on every advance step it survives (every survivor
of the advance step is the advancement of a member of the previous
collection). -/
theorem spawn_attribute_ranges (mouse : ℚ × ℚ) (r : Rand) (hr : r.Valid) :
    (spawnedSquare mouse r).life = 1 ∧
    (0.2 ≤ (spawnedSquare mouse r).opacity ∧
      (spawnedSquare mouse r).opacity ≤ 0.7) ∧
    (0.01 ≤ (spawnedSquare mouse r).decay ∧
      (spawnedSquare mouse r).decay ≤ 0.04) ∧
    0 < (spawnedSquare mouse r).decay ∧
    (∀ sq : Square, (advanceSquare sq).decay = sq.decay) ∧
    (∀ sq : Square, 0 < sq.decay → (advanceSquare sq).life < sq.life) ∧
    (∀ (l : List Square) (sq' : Square), sq' ∈ advanceAndCull l →
      ∃ sq ∈ l, sq' = advanceSquare sq ∧ 0 < sq'.life) := by
  refine ⟨spawnedSquare_life mouse r, spawnedSquare_opacity_mem mouse r hr,
    spawnedSquare_decay_mem mouse r hr, ?_, fun _ => rfl, ?_, ?_⟩
  · have := (spawnedSquare_decay_mem mouse r hr).1
    linarith
  · intro sq hd
    simp only [advanceSquare]
    linarith
  · intro l sq' hm
    exact mem_advanceAndCull.mp hm

/-- C6 witness: random draws `(0, 1/2, 1/2, 0, 0)` produce a square with
life exactly 1. -/
theorem spawn_attribute_ranges_witness :
    (spawnedSquare (100, 100) ⟨0, 1/2, 1/2, 0, 0⟩).life = 1 :=
  (spawn_attribute_ranges (100, 100) ⟨0, 1/2, 1/2, 0, 0⟩
      (by norm_num [Rand.Valid])).1

/-- C7: a container-resize event rewrites only the canvas's pixel
dimensions to the container's current layout box; the simulation state —
count, coordinates and attributes of every particle, pointer state — is
untouched, and repeating the resize any number of times changes nothing
further. -/
theorem resize_preserves_particles (w h : ℚ) (st : SurfaceState) (n : ℕ) :
    (resizeCanvas w h st).sim = st.sim ∧
    (resizeCanvas w h st).sim.squares = st.sim.squares ∧
    (resizeCanvas w h st).canvas = ⟨w, h⟩ ∧
    ((resizeCanvas w h)^[n + 1] st).sim = st.sim ∧
    ((resizeCanvas w h)^[n + 1] st).canvas = ⟨w, h⟩ := by
  have hsim : ∀ m : ℕ, ((resizeCanvas w h)^[m] st).sim = st.sim := by
    intro m
    induction m with
    | zero => rfl
    | succ k ih => rw [Function.iterate_succ_apply']; exact ih
  refine ⟨rfl, rfl, rfl, hsim (n + 1), ?_⟩
  rw [Function.iterate_succ_apply']
  rfl

/-- C10: a particle spawned in tick `t` has its decay subtracted in the
advance phase of the same tick, before it is first painted: the post-tick
collection ends with the advanced spawn, whose life is `1 - decay`; the
tick's first fill call paints it with alpha `opacity * (1 - decay)`,
strictly below its base opacity; and no particle of the post-tick
collection (hence none that is painted) has life `1.0` or more. -/
theorem spawn_advanced_before_first_paint (mouse : ℚ × ℚ) (r : Rand)
    (sqs : List Square) (hr : r.Valid) (hinv : LiveInv sqs)
    (hroll : r.rSpawn < 0.4)
    (hacc : cellCenterDistSq mouse r < radius ^ 2) :
    tick true mouse r sqs =
      advanceAndCull sqs ++ [advanceSquare (spawnedSquare mouse r)] ∧
    (advanceSquare (spawnedSquare mouse r)).life =
      1 - (spawnedSquare mouse r).decay ∧
    tickDraws true mouse r sqs =
      ⟨gridX mouse r, gridY mouse r,
        (spawnedSquare mouse r).opacity * (1 - (spawnedSquare mouse r).decay)⟩
        :: drawsOf sqs ∧
    (spawnedSquare mouse r).opacity * (1 - (spawnedSquare mouse r).decay) <
      (spawnedSquare mouse r).opacity ∧
    ∀ sq ∈ tick true mouse r sqs, sq.life < 1 := by
  have hdec := spawnedSquare_decay_mem mouse r hr
  have hop := spawnedSquare_opacity_mem mouse r hr
  have hlife := spawnedSquare_life mouse r
  have hlife' : (advanceSquare (spawnedSquare mouse r)).life =
      1 - (spawnedSquare mouse r).decay := by
    rw [show (advanceSquare (spawnedSquare mouse r)).life =
        (spawnedSquare mouse r).life - (spawnedSquare mouse r).decay from rfl,
      hlife]
  have hsurv : ¬(advanceSquare (spawnedSquare mouse r)).life ≤ 0 := by
    rw [hlife']
    intro hc
    linarith [hdec.2]
  have hspawn := spawnStep_accept mouse r sqs hroll hacc
  refine ⟨?_, hlife', ?_, ?_, ?_⟩
  · rw [tick, hspawn, advanceAndCull_append, advanceAndCull_cons,
      if_neg hsurv, advanceAndCull_nil]
  · rw [tickDraws, hspawn, drawsOf_append, drawsOf_cons, if_neg hsurv]
    have halpha : (advanceSquare (spawnedSquare mouse r)).opacity *
        (advanceSquare (spawnedSquare mouse r)).life =
        (spawnedSquare mouse r).opacity * (1 - (spawnedSquare mouse r).decay) := by
      rw [show (advanceSquare (spawnedSquare mouse r)).opacity =
          (spawnedSquare mouse r).opacity from rfl, hlife']
    rw [show drawsOf ([] : List Square) = [] from rfl, List.nil_append,
      List.singleton_append, halpha]
    rfl
  · have hpos : 0 < (spawnedSquare mouse r).opacity := by linarith [hop.1]
    have hdpos : 0 < (spawnedSquare mouse r).decay := by linarith [hdec.1]
    nlinarith
  · intro sq hm
    have hinv' : LiveInv (spawnStep true mouse r sqs) := liveInv_spawnStep hr hinv
    rcases mem_advanceAndCull.mp hm with ⟨sq₀, hm₀, rfl, -⟩
    obtain ⟨hle, hd⟩ := hinv' sq₀ hm₀
    have : (advanceSquare sq₀).life = sq₀.life - sq₀.decay := rfl
    rw [this]
    linarith

/-- C10 witness: at pointer `(100, 100)` with draws `(0, 1/2, 1/2, 0, 0)`
from the empty collection, the tick's collection is exactly the advanced
spawn. -/
theorem spawn_advanced_before_first_paint_witness :
    tick true (100, 100) ⟨0, 1/2, 1/2, 0, 0⟩ [] =
      advanceAndCull [] ++
        [advanceSquare (spawnedSquare (100, 100) ⟨0, 1/2, 1/2, 0, 0⟩)] :=
  (spawn_advanced_before_first_paint (100, 100) ⟨0, 1/2, 1/2, 0, 0⟩ []
      (by norm_num [Rand.Valid]) (by simp [LiveInv]) (by norm_num)
      (by norm_num [cellCenterDistSq, gridX, gridY, candidateX, candidateY,
        gridSize, radius])).1

end Mosaic

/-- C8: the two layout variants of `MosaicButton` implement identical
interaction and simulation logic: modulo the field-for-field conversion
between their (structurally identical) square types, the spawn phase,
the advance-and-cull phase, the issued fill calls, the whole tick, and
all three mouse handlers of the second variant coincide with those of the
first. -/
theorem variants_share_logic :
    (∀ (hovering : Bool) (mouse : ℚ × ℚ) (r : Mosaic.Rand)
        (sqs : List Mosaic2.Square),
      (Mosaic2.spawnStep hovering mouse r sqs).map Mosaic2.Square.toMosaic =
        Mosaic.spawnStep hovering mouse r (sqs.map Mosaic2.Square.toMosaic)) ∧
    (∀ sqs : List Mosaic2.Square,
      (Mosaic2.advanceAndCull sqs).map Mosaic2.Square.toMosaic =
        Mosaic.advanceAndCull (sqs.map Mosaic2.Square.toMosaic)) ∧
    (∀ sqs : List Mosaic2.Square,
      Mosaic2.drawsOf sqs = Mosaic.drawsOf (sqs.map Mosaic2.Square.toMosaic)) ∧
    (∀ (hovering : Bool) (mouse : ℚ × ℚ) (r : Mosaic.Rand)
        (sqs : List Mosaic2.Square),
      (Mosaic2.tick hovering mouse r sqs).map Mosaic2.Square.toMosaic =
        Mosaic.tick hovering mouse r (sqs.map Mosaic2.Square.toMosaic)) ∧
    Mosaic2.handleMouseMove = Mosaic.handleMouseMove ∧
    Mosaic2.handleMouseEnter = Mosaic.handleMouseEnter ∧
    Mosaic2.handleMouseLeave = Mosaic.handleMouseLeave := by
  have hspawn : ∀ (hovering : Bool) (mouse : ℚ × ℚ) (r : Mosaic.Rand)
      (sqs : List Mosaic2.Square),
      (Mosaic2.spawnStep hovering mouse r sqs).map Mosaic2.Square.toMosaic =
        Mosaic.spawnStep hovering mouse r (sqs.map Mosaic2.Square.toMosaic) := by
    intro hovering mouse r sqs
    cases hovering with
    | false => rfl
    | true =>
      simp only [Mosaic2.spawnStep, Mosaic.spawnStep, Mosaic.cellCenterDistSq,
        Mosaic.gridX, Mosaic.gridY, Mosaic.candidateX, Mosaic.candidateY,
        Mosaic.spawnedSquare, Mosaic2.gridSize, Mosaic.gridSize,
        Mosaic2.radius, Mosaic.radius, if_true]
      split_ifs with h1 h2
      · simp [Mosaic2.Square.toMosaic]
      · rfl
      · rfl
  have hadv : ∀ sqs : List Mosaic2.Square,
      (Mosaic2.advanceAndCull sqs).map Mosaic2.Square.toMosaic =
        Mosaic.advanceAndCull (sqs.map Mosaic2.Square.toMosaic) := by
    intro sqs
    induction sqs with
    | nil => rfl
    | cons a rest ih =>
      simp only [Mosaic2.advanceAndCull, List.map_cons, Mosaic.advanceAndCull_cons]
      by_cases h : a.life - a.decay ≤ 0
      · rw [if_pos h,
          if_pos (show (Mosaic.advanceSquare a.toMosaic).life ≤ 0 from h), ih]
      · rw [if_neg h,
          if_neg (show ¬(Mosaic.advanceSquare a.toMosaic).life ≤ 0 from h),
          List.map_cons, ih]
        rfl
  have hdraws : ∀ sqs : List Mosaic2.Square,
      Mosaic2.drawsOf sqs = Mosaic.drawsOf (sqs.map Mosaic2.Square.toMosaic) := by
    intro sqs
    induction sqs with
    | nil => rfl
    | cons a rest ih =>
      simp only [Mosaic2.drawsOf, List.map_cons, Mosaic.drawsOf_cons]
      by_cases h : a.life - a.decay ≤ 0
      · rw [if_pos h,
          if_pos (show (Mosaic.advanceSquare a.toMosaic).life ≤ 0 from h), ih]
      · rw [if_neg h,
          if_neg (show ¬(Mosaic.advanceSquare a.toMosaic).life ≤ 0 from h), ih]
        rfl
  refine ⟨hspawn, hadv, hdraws, ?_, rfl, rfl, rfl⟩
  intro hovering mouse r sqs
  rw [Mosaic2.tick, Mosaic.tick, hadv, hspawn]

/-- C9: `ServiceIcon` maps each of the three supported identifiers to its
icon at the requested size and maps every other identifier to `none` — a
total function whose unknown-identifier branch is a silent no-op, never
an error. -/
theorem service_icon_total_lookup :
    (∀ size : ℚ,
      ServiceIcon "Claude" size = some (Icon.Claude size) ∧
      ServiceIcon "OpenAI" size = some (Icon.OpenAI size) ∧
      ServiceIcon "Gemini" size = some (Icon.Gemini size)) ∧
    (∀ (name : String) (size : ℚ), name ≠ "Claude" → name ≠ "OpenAI" →
      name ≠ "Gemini" → ServiceIcon name size = none) := by
  refine ⟨fun size => ⟨rfl, rfl, rfl⟩, ?_⟩
  intro name size h1 h2 h3
  simp [ServiceIcon, h1, h2, h3]

/-- C9 witness: the unsupported identifier `"GPT"` renders nothing. -/
theorem service_icon_total_lookup_witness :
    ServiceIcon "GPT" 64 = none :=
  service_icon_total_lookup.2 "GPT" 64 (by decide) (by decide) (by decide)
